import Mathlib

/-!
Verification development for the `roma-blackbox` request-monitoring pipeline
(`src/roma_blackbox/wrapper.py`).  Python values are embedded as a tagged
union (`Value`), Python dicts as ordered association structures, and the
wrapper's `run` coroutine as a pure function over explicit collaborator
behaviours (agent, storage, metrics) together with an event log recording
every collaborator invocation in order.
-/

mutual

/-- A Python value as it flows through the wrapper: strings, ints, floats
(modelled as rationals), booleans, `None`, lists, and dicts (ordered key
to value associations, mirroring CPython insertion order). -/
inductive Value where
  | str (s : String)
  | int (n : Int)
  | float (q : Rat)
  | bool (b : Bool)
  | null
  | list (xs : ValueList)
  | dict (kvs : ValueDict)

inductive ValueList where
  | nil
  | cons (hd : Value) (tl : ValueList)

inductive ValueDict where
  | nil
  | cons (key : String) (val : Value) (tl : ValueDict)

end

/-- First-match lookup in a dict, mirroring CPython `dict.__getitem__`
(CPython dicts carry no duplicate keys, so first match is exact). -/
def dictLookup (d : ValueDict) (k : String) : Option Value :=
  match d with
  | .nil => none
  | .cons k1 v t => if k1 = k then some v else dictLookup t k

/-- `d.get(k, dflt)` -/
def dictGetD (d : ValueDict) (k : String) (dflt : Value) : Value :=
  match dictLookup d k with
  | some v => v
  | none => dflt

/-- `d[k] = v`: overwrite in place if the key exists, else append. -/
def dictSet (d : ValueDict) (k : String) (v : Value) : ValueDict :=
  match d with
  | .nil => .cons k v .nil
  | .cons k1 v1 t => if k1 = k then .cons k1 v t else .cons k1 v1 (dictSet t k v)

/-- Concatenation of two dicts, modelling `f(task, **payload, **kwargs)`
keyword merging as seen by the callee. -/
def dictAppend (d1 d2 : ValueDict) : ValueDict :=
  match d1 with
  | .nil => d2
  | .cons k v t => .cons k v (dictAppend t d2)

/-- Insertion-ordered key list of a dict. -/
def dictKeys (d : ValueDict) : List String :=
  match d with
  | .nil => []
  | .cons k _ t => k :: dictKeys t

theorem dictGetD_eq_lookup (d : ValueDict) (k : String) (dflt : Value) :
    dictGetD d k dflt = (dictLookup d k).getD dflt := by
  cases h : dictLookup d k <;> simp [dictGetD, h]

theorem dictLookup_dictSet_self (d : ValueDict) (k : String) (v : Value) :
    dictLookup (dictSet d k v) k = some v := by
  cases d with
  | nil => simp [dictSet, dictLookup]
  | cons k1 v1 t =>
      by_cases h : k1 = k <;>
        simp [dictSet, h, dictLookup, dictLookup_dictSet_self t k v]

/-! ## PII redaction engine

`src/roma_blackbox/pii_patterns.py` (`EnhancedPIIRedactor`) and
`src/roma_blackbox/filters.py` (`PIIRedactor`) are not under `src/`; the
engine below is modelled from the spec (section 4.1 and the PII catalogue of
section 3): an ordered catalogue of (type-name, detection rule) pairs,
applied additively over the words of each string leaf, first matching rule
wins for a given span, every match replaced by a fixed marker token unique
to its PII type, non-string leaves passed through unchanged, and no rule
matches a marker token. -/

/-- Split a character stream into space-separated words (maximal non-space
segments, empty segments dropped); `acc` holds the reversed current word. -/
def wordsAux (acc : List Char) : List Char → List (List Char)
  | [] => if acc = [] then [] else [acc.reverse]
  | c :: cs =>
      if c = ' ' then
        if acc = [] then wordsAux [] cs else acc.reverse :: wordsAux [] cs
      else wordsAux (c :: acc) cs

def wordsC (cs : List Char) : List (List Char) := wordsAux [] cs

def unwordsC : List (List Char) → List Char
  | [] => []
  | [w] => w
  | w :: ws => w ++ ' ' :: unwordsC ws

/-- A word fit to appear in word-split text: nonempty and space-free. -/
def GoodWord (w : List Char) : Prop := w ≠ [] ∧ ∀ c ∈ w, c ≠ ' '

instance : DecidablePred GoodWord := fun w => by
  unfold GoodWord; infer_instance

/-- Split a list on a separator character, keeping empty segments
(the shape of `str.split(sep)`). -/
def splitOnC (sep : Char) : List Char → List (List Char)
  | [] => [[]]
  | c :: cs =>
      let r := splitOnC sep cs
      if c = sep then [] :: r
      else
        match r with
        | [] => [[c]]
        | w :: ws => (c :: w) :: ws

def natOfDigits (w : List Char) : Nat :=
  w.foldl (fun a c => a * 10 + (c.toNat - 48)) 0

def emailLocalChar (c : Char) : Bool :=
  c.isAlphanum || c == '.' || c == '_' || c == '%' || c == '+' || c == '-'

def emailDomainChar (c : Char) : Bool :=
  c.isAlphanum || c == '.' || c == '-'

def detectEmail (w : List Char) : Bool :=
  match splitOnC '@' w with
  | [l, d] =>
      !l.isEmpty && l.all emailLocalChar && !d.isEmpty &&
      d.all emailDomainChar && d.any (fun c => c == '.')
  | _ => false

/-- Dash-separated digit groups of prescribed sizes (phone / SSN / card). -/
def digitGroups (pattern : List Nat) (sep : Char) (w : List Char) : Bool :=
  let parts := splitOnC sep w
  parts.length == pattern.length &&
  (parts.zip pattern).all (fun p => p.1.length == p.2 && p.1.all Char.isDigit)

def detectPhone (w : List Char) : Bool := digitGroups [3, 3, 4] '-' w

def detectSSN (w : List Char) : Bool := digitGroups [3, 2, 4] '-' w

def detectCard (w : List Char) : Bool :=
  digitGroups [4, 4, 4, 4] '-' w || (w.length == 16 && w.all Char.isDigit)

def detectWallet (w : List Char) : Bool :=
  (w.headD ' ' == '1' || w.headD ' ' == '3') &&
  26 ≤ w.length && w.length ≤ 35 && w.all Char.isAlphanum

def detectIPv4 (w : List Char) : Bool :=
  match splitOnC '.' w with
  | [a, b, c, d] =>
      [a, b, c, d].all
        (fun p => !p.isEmpty && p.length ≤ 3 && p.all Char.isDigit &&
                  natOfDigits p ≤ 255)
  | _ => false

def detectApiKey (w : List Char) : Bool :=
  w.take 8 == "sk_live_".data && 8 < w.length

structure PiiRule where
  name : String
  detect : List Char → Bool
  marker : List Char

/-- Modelled from the spec: the ordered PII catalogue of
`pii_patterns.py` / `filters.py` (absent from `src/`) — pattern-based
detection rules for email, phone, SSN, credit-card, crypto-wallet-address,
IP-address and API-key, each with a fixed marker token that no rule
matches. -/
def piiCatalogue : List PiiRule :=
  [⟨"email", detectEmail, "[EMAIL_REDACTED]".data⟩,
   ⟨"phone", detectPhone, "[PHONE_REDACTED]".data⟩,
   ⟨"ssn", detectSSN, "[SSN_REDACTED]".data⟩,
   ⟨"credit_card", detectCard, "[CREDIT_CARD_REDACTED]".data⟩,
   ⟨"crypto_wallet", detectWallet, "[WALLET_REDACTED]".data⟩,
   ⟨"ip_address", detectIPv4, "[IP_REDACTED]".data⟩,
   ⟨"api_key", detectApiKey, "[API_KEY_REDACTED]".data⟩]

/-- Redact one word: the first catalogue rule that matches wins and
replaces the word by its marker; an unmatched word is left unchanged. -/
def redactWordC (w : List Char) : List Char :=
  match piiCatalogue.find? (fun r => r.detect w) with
  | some r => r.marker
  | none => w

def redactStringC (cs : List Char) : List Char :=
  unwordsC ((wordsC cs).map redactWordC)

def redactStr (s : String) : String := String.mk (redactStringC s.data)

theorem marker_unmatched :
    ∀ r ∈ piiCatalogue, ∀ r2 ∈ piiCatalogue, r.detect r2.marker = false := by
  decide

theorem marker_goodWord : ∀ r ∈ piiCatalogue, GoodWord r.marker := by
  decide

theorem wordsAux_append (w : List Char) :
    ∀ acc cs, (∀ c ∈ w, c ≠ ' ') →
      wordsAux acc (w ++ cs) = wordsAux (w.reverse ++ acc) cs := by
  induction w with
  | nil => intro acc cs _; simp
  | cons c w ih =>
      intro acc cs h
      have hc : c ≠ ' ' := h c (by simp)
      rw [List.cons_append]
      show (if c = ' ' then _ else wordsAux (c :: acc) (w ++ cs)) = _
      rw [if_neg hc, ih (c :: acc) cs (fun c2 h2 => h c2 (List.mem_cons_of_mem c h2))]
      congr 1
      simp

theorem wordsC_unwordsC :
    ∀ ws : List (List Char), (∀ w ∈ ws, GoodWord w) →
      wordsC (unwordsC ws) = ws
  | [], _ => rfl
  | [w], h => by
      have hw := h w (by simp)
      show wordsAux [] (unwordsC [w]) = [w]
      have : unwordsC [w] = w ++ [] := by simp [unwordsC]
      rw [this, wordsAux_append w [] [] hw.2]
      have hne : w.reverse ++ [] ≠ [] := by simp [hw.1]
      simp [wordsAux, hne, hw.1]
  | w :: w2 :: ws, h => by
      have hw := h w (by simp)
      show wordsAux [] (unwordsC (w :: w2 :: ws)) = w :: w2 :: ws
      have hu : unwordsC (w :: w2 :: ws) = w ++ ' ' :: unwordsC (w2 :: ws) := by
        simp [unwordsC]
      rw [hu, wordsAux_append w [] _ hw.2]
      show (if (' ' : Char) = ' ' then _ else _) = _
      rw [if_pos rfl]
      have hne : w.reverse ++ [] ≠ [] := by simp [hw.1]
      rw [if_neg hne]
      have := wordsC_unwordsC (w2 :: ws) (fun w3 h3 => h w3 (List.mem_cons_of_mem w h3))
      simp only [wordsC] at this
      rw [this]
      simp

theorem goodWord_reverse :
    ∀ acc : List Char, acc ≠ [] → (∀ c ∈ acc, c ≠ ' ') → GoodWord acc.reverse := by
  intro acc hne hfree
  exact ⟨by simp [hne], by simpa using hfree⟩

theorem goodWord_wordsAux_mem :
    ∀ cs acc, (∀ c ∈ acc, c ≠ ' ') → ∀ w ∈ wordsAux acc cs, GoodWord w := by
  intro cs
  induction cs with
  | nil =>
      intro acc hacc w hw
      by_cases h : acc = []
      · simp [wordsAux, h] at hw
      · simp [wordsAux, h] at hw
        subst hw
        exact goodWord_reverse acc h hacc
  | cons c cs ih =>
      intro acc hacc w hw
      by_cases hc : c = ' '
      · by_cases h : acc = []
        · rw [show wordsAux acc (c :: cs) = wordsAux [] cs by
            simp [wordsAux, hc, h]] at hw
          exact ih [] (by simp) w hw
        · rw [show wordsAux acc (c :: cs) = acc.reverse :: wordsAux [] cs by
            simp [wordsAux, hc, h]] at hw
          rcases List.mem_cons.mp hw with h1 | h1
          · subst h1; exact goodWord_reverse acc h hacc
          · exact ih [] (by simp) w h1
      · rw [show wordsAux acc (c :: cs) = wordsAux (c :: acc) cs by
          simp [wordsAux, hc]] at hw
        refine ih (c :: acc) ?_ w hw
        intro c2 h2
        rcases List.mem_cons.mp h2 with h3 | h3
        · subst h3; exact hc
        · exact hacc c2 h3

theorem goodWord_wordsC (cs : List Char) : ∀ w ∈ wordsC cs, GoodWord w :=
  goodWord_wordsAux_mem cs [] (by simp)

theorem redactWordC_marker (r : PiiRule) (hr : r ∈ piiCatalogue) :
    redactWordC r.marker = r.marker := by
  have hfind : piiCatalogue.find? (fun r2 => r2.detect r.marker) = none := by
    apply List.find?_eq_none.mpr
    intro r2 h2
    simp [marker_unmatched r2 h2 r hr]
  simp [redactWordC, hfind]

theorem redactWordC_idem (w : List Char) :
    redactWordC (redactWordC w) = redactWordC w := by
  cases hf : piiCatalogue.find? (fun r => r.detect w) with
  | none => simp [redactWordC, hf]
  | some r =>
      have hr : r ∈ piiCatalogue := List.mem_of_find?_eq_some hf
      simp [redactWordC, hf]
      have := redactWordC_marker r hr
      simpa [redactWordC] using this

theorem goodWord_redactWordC (w : List Char) (h : GoodWord w) :
    GoodWord (redactWordC w) := by
  cases hf : piiCatalogue.find? (fun r => r.detect w) with
  | none => simpa [redactWordC, hf] using h
  | some r =>
      have hr : r ∈ piiCatalogue := List.mem_of_find?_eq_some hf
      simpa [redactWordC, hf] using marker_goodWord r hr

theorem redactStringC_idem (cs : List Char) :
    redactStringC (redactStringC cs) = redactStringC cs := by
  unfold redactStringC
  have hgood : ∀ w ∈ (wordsC cs).map redactWordC, GoodWord w := by
    intro w hw
    rcases List.mem_map.mp hw with ⟨w0, hw0, rfl⟩
    exact goodWord_redactWordC w0 (goodWord_wordsC cs w0 hw0)
  rw [wordsC_unwordsC _ hgood, List.map_map]
  congr 1
  exact List.map_congr_left (fun w _ => redactWordC_idem w)

theorem redactStr_idem (s : String) : redactStr (redactStr s) = redactStr s := by
  simp [redactStr, redactStringC_idem]

mutual

/-- Modelled from the spec: `redact` of the redaction engine (absent from
`src/`) — a structurally identical copy in which every string leaf has its
PII matches replaced by marker tokens; non-string leaves pass through
unchanged; dict keys are left as-is. -/
def redactValue : Value → Value
  | .str s => .str (redactStr s)
  | .int n => .int n
  | .float q => .float q
  | .bool b => .bool b
  | .null => .null
  | .list xs => .list (redactVList xs)
  | .dict kvs => .dict (redactVDict kvs)

def redactVList : ValueList → ValueList
  | .nil => .nil
  | .cons v t => .cons (redactValue v) (redactVList t)

def redactVDict : ValueDict → ValueDict
  | .nil => .nil
  | .cons k v t => .cons k (redactValue v) (redactVDict t)

end

mutual

theorem redactValue_idem : ∀ v : Value, redactValue (redactValue v) = redactValue v
  | .str s => by simp [redactValue, redactStr_idem]
  | .int n => rfl
  | .float q => rfl
  | .bool b => rfl
  | .null => rfl
  | .list xs => by simp [redactValue, redactVList_idem xs]
  | .dict kvs => by simp [redactValue, redactVDict_idem kvs]

theorem redactVList_idem : ∀ xs : ValueList, redactVList (redactVList xs) = redactVList xs
  | .nil => rfl
  | .cons v t => by simp [redactVList, redactValue_idem v, redactVList_idem t]

theorem redactVDict_idem : ∀ kvs : ValueDict, redactVDict (redactVDict kvs) = redactVDict kvs
  | .nil => rfl
  | .cons k v t => by simp [redactVDict, redactValue_idem v, redactVDict_idem t]

end

/-! ## Canonical string form and SHA-256

`BlackBoxWrapper._compute_hash` is `hashlib.sha256(str(data).encode()).hexdigest()`;
`str`/`encode`/`sha256` are CPython and its standard library, modelled here:
`pyStr` renders a value the way CPython `str()` does for the common shapes
(dict/list literals with `repr`-quoted strings; non-integral floats fall back
to a fraction rendering, which no theorem relies on), `utf8Bytes` is UTF-8
encoding, and `sha256Hex` is FIPS 180-4 SHA-256 with a lowercase hex digest. -/

def singleQuote : Char := Char.ofNat 39

def backslashChar : Char := Char.ofNat 92

def pyEscapeChars : List Char → List Char
  | [] => []
  | c :: cs =>
      if c = backslashChar then backslashChar :: backslashChar :: pyEscapeChars cs
      else if c = singleQuote then backslashChar :: singleQuote :: pyEscapeChars cs
      else c :: pyEscapeChars cs

def pyQuote (s : String) : String :=
  String.mk (singleQuote :: pyEscapeChars s.data ++ [singleQuote])

def pyFloatStr (q : Rat) : String :=
  if q.den = 1 then toString q.num ++ ".0"
  else toString q.num ++ "/" ++ toString q.den

mutual

def pyRepr : Value → String
  | .str s => pyQuote s
  | .int n => toString n
  | .float q => pyFloatStr q
  | .bool b => if b then "True" else "False"
  | .null => "None"
  | .list xs => "[" ++ pyReprList xs ++ "]"
  | .dict kvs => "\x7b" ++ pyReprDict kvs ++ "\x7d"

def pyReprList : ValueList → String
  | .nil => ""
  | .cons v t =>
      pyRepr v ++ (match t with | .nil => "" | .cons _ _ => ", ") ++ pyReprList t

def pyReprDict : ValueDict → String
  | .nil => ""
  | .cons k v t =>
      pyQuote k ++ ": " ++ pyRepr v ++
      (match t with | .nil => "" | .cons _ _ _ => ", ") ++ pyReprDict t

end

def pyStr : Value → String
  | .str s => s
  | v => pyRepr v

def utf8Char (c : Char) : List Nat :=
  let n := c.toNat
  if n < 128 then [n]
  else if n < 2048 then [192 + n / 64, 128 + n % 64]
  else if n < 65536 then [224 + n / 4096, 128 + n / 64 % 64, 128 + n % 64]
  else [240 + n / 262144, 128 + n / 4096 % 64, 128 + n / 64 % 64, 128 + n % 64]

def utf8Bytes (s : String) : List Nat := (s.data.map utf8Char).flatten

def rotr32 (x k : Nat) : Nat := (x / 2 ^ k + x % 2 ^ k * 2 ^ (32 - k)) % 2 ^ 32

def shr32 (x k : Nat) : Nat := x / 2 ^ k

def xor3 (a b c : Nat) : Nat := Nat.xor (Nat.xor a b) c

def bigSigma0 (x : Nat) : Nat := xor3 (rotr32 x 2) (rotr32 x 13) (rotr32 x 22)

def bigSigma1 (x : Nat) : Nat := xor3 (rotr32 x 6) (rotr32 x 11) (rotr32 x 25)

def smallSigma0 (x : Nat) : Nat := xor3 (rotr32 x 7) (rotr32 x 18) (shr32 x 3)

def smallSigma1 (x : Nat) : Nat := xor3 (rotr32 x 17) (rotr32 x 19) (shr32 x 10)

def chFn (x y z : Nat) : Nat :=
  Nat.xor (Nat.land x y) (Nat.land (Nat.xor x (2 ^ 32 - 1)) z)

def majFn (x y z : Nat) : Nat :=
  Nat.xor (Nat.xor (Nat.land x y) (Nat.land x z)) (Nat.land y z)

def K256 : List Nat :=
  [1116352408, 1899447441, 3049323471, 3921009573, 961987163,
   1508970993, 2453635748, 2870763221, 3624381080, 310598401,
   607225278, 1426881987, 1925078388, 2162078206, 2614888103,
   3248222580, 3835390401, 4022224774, 264347078, 604807628,
   770255983, 1249150122, 1555081692, 1996064986, 2554220882,
   2821834349, 2952996808, 3210313671, 3336571891, 3584528711,
   113926993, 338241895, 666307205, 773529912, 1294757372,
   1396182291, 1695183700, 1986661051, 2177026350, 2456956037,
   2730485921, 2820302411, 3259730800, 3345764771, 3516065817,
   3600352804, 4094571909, 275423344, 430227734, 506948616,
   659060556, 883997877, 958139571, 1322822218, 1537002063,
   1747873779, 1955562222, 2024104815, 2227730452, 2361852424,
   2428436474, 2756734187, 3204031479, 3329325298]

structure SHAState where
  a : Nat
  b : Nat
  c : Nat
  d : Nat
  e : Nat
  f : Nat
  g : Nat
  h : Nat

def shaH0 : SHAState :=
  ⟨1779033703, 3144134277, 1013904242, 2773480762,
   1359893119, 2600822924, 528734635, 1541459225⟩

def shaRound (s : SHAState) (kw : Nat × Nat) : SHAState :=
  let t1 := (s.h + bigSigma1 s.e + chFn s.e s.f s.g + kw.1 + kw.2) % 2 ^ 32
  let t2 := (bigSigma0 s.a + majFn s.a s.b s.c) % 2 ^ 32
  ⟨(t1 + t2) % 2 ^ 32, s.a, s.b, s.c, (s.d + t1) % 2 ^ 32, s.e, s.f, s.g⟩

/-- Extend the 16 block words with `k` further schedule words. -/
def extendWords : Nat → List Nat → List Nat
  | 0, ws => ws
  | k + 1, ws =>
      let n := ws.length
      let nw := (ws.getD (n - 16) 0 + smallSigma0 (ws.getD (n - 15) 0) +
                 ws.getD (n - 7) 0 + smallSigma1 (ws.getD (n - 2) 0)) % 2 ^ 32
      extendWords k (ws ++ [nw])

/-- Split a list into chunks of `n + 1` elements. -/
def chunksAux (n : Nat) : List α → List (List α)
  | [] => []
  | x :: xs => (x :: xs).take (n + 1) :: chunksAux n (xs.drop n)
  termination_by l => l.length
  decreasing_by simp [List.length_drop]; omega

def beBytes8 (n : Nat) : List Nat :=
  [n / 2 ^ 56 % 256, n / 2 ^ 48 % 256, n / 2 ^ 40 % 256, n / 2 ^ 32 % 256,
   n / 2 ^ 24 % 256, n / 2 ^ 16 % 256, n / 2 ^ 8 % 256, n % 256]

/-- FIPS 180-4 padding: `0x80`, zeros to 56 mod 64, 8-byte big-endian bit length. -/
def sha256Pad (msg : List Nat) : List Nat :=
  let padZeros := (64 - (msg.length + 9) % 64) % 64
  msg ++ 128 :: List.replicate padZeros 0 ++ beBytes8 (msg.length * 8)

def beWord (b : List Nat) : Nat :=
  b.getD 0 0 * 2 ^ 24 + b.getD 1 0 * 2 ^ 16 + b.getD 2 0 * 2 ^ 8 + b.getD 3 0

def compressBlock (s0 : SHAState) (block : List Nat) : SHAState :=
  let ws := extendWords 48 ((chunksAux 3 block).map beWord)
  let s := (K256.zip ws).foldl shaRound s0
  ⟨(s0.a + s.a) % 2 ^ 32, (s0.b + s.b) % 2 ^ 32, (s0.c + s.c) % 2 ^ 32,
   (s0.d + s.d) % 2 ^ 32, (s0.e + s.e) % 2 ^ 32, (s0.f + s.f) % 2 ^ 32,
   (s0.g + s.g) % 2 ^ 32, (s0.h + s.h) % 2 ^ 32⟩

def hexDigitChars : List Char := "0123456789abcdef".data

def nibChar (n : Nat) : Char := hexDigitChars.getD (n % 16) '0'

def wordNibbles (w : Nat) : List Nat :=
  [w / 2 ^ 28 % 16, w / 2 ^ 24 % 16, w / 2 ^ 20 % 16, w / 2 ^ 16 % 16,
   w / 2 ^ 12 % 16, w / 2 ^ 8 % 16, w / 2 ^ 4 % 16, w % 16]

def sha256Hex (msg : List Nat) : String :=
  let s := (chunksAux 63 (sha256Pad msg)).foldl compressBlock shaH0
  String.mk ((([s.a, s.b, s.c, s.d, s.e, s.f, s.g, s.h].map wordNibbles).flatten).map nibChar)

/-- `BlackBoxWrapper._compute_hash` (wrapper.py lines 186-188). -/
def computeHash (data : Value) : String := sha256Hex (utf8Bytes (pyStr data))

theorem sha256Hex_length (msg : List Nat) : (sha256Hex msg).length = 64 := by
  unfold sha256Hex
  simp [String.length, wordNibbles]

theorem nibChar_mem_hex (n : Nat) : nibChar n ∈ hexDigitChars := by
  unfold nibChar
  have h : n % 16 < hexDigitChars.length := by
    have h16 : hexDigitChars.length = 16 := rfl
    rw [h16]
    exact Nat.mod_lt n (by norm_num)
  rw [List.getD_eq_getElem hexDigitChars _ h]
  exact List.getElem_mem h

theorem sha256Hex_chars (msg : List Nat) :
    ∀ c ∈ (sha256Hex msg).data, c ∈ hexDigitChars := by
  unfold sha256Hex
  intro c hc
  simp only [String.mk] at hc
  rcases List.mem_map.mp hc with ⟨n, _, rfl⟩
  exact nibChar_mem_hex n

theorem computeHash_length (data : Value) : (computeHash data).length = 64 :=
  sha256Hex_length _

theorem computeHash_chars (data : Value) :
    ∀ c ∈ (computeHash data).data, c ∈ hexDigitChars :=
  sha256Hex_chars _

/-! ## The wrapper (`src/roma_blackbox/wrapper.py`)

`run` is embedded as a pure function.  The Metrics collaborator is a log of
events (spec section 6 requires metrics failures never to fail a request, so
metrics calls are infallible); the Storage collaborator's `store_outcome` may
raise, given by `storeResp : Nat → Except String Unit` indexed by the number
of store calls already made inside this invocation; wall-clock readings and
timestamps are supplied through `RunEnv`. -/

/-- Modelled from the spec: `Policy` (`policy.py` is absent from `src/`) —
the immutable per-deployment configuration of spec section 3. -/
structure Policy where
  black_box : Bool
  keep_hashes : Bool
  include_code_sha : Bool
  include_policy_hash : Bool
  break_glass_request_ids : List String := []

/-- One response of the wrapped agent's `run` method: a normal return, or a
raised exception (`isTypeError` distinguishes `TypeError`, the only class the
wrapper retries on). -/
inductive AgentResp where
  | ok (v : Value)
  | raise (isTypeError : Bool) (msg : String)

/-- The wrapped agent: `hasRun` is `hasattr(agent, "run")`; `runFull` answers
`agent.run(task, **payload, **kwargs)`; `runTaskOnly` answers the retry
`agent.run(task)`. -/
structure Agent where
  typeName : String
  hasRun : Bool
  runFull : String → ValueDict → AgentResp
  runTaskOnly : String → AgentResp

structure Wrapper where
  agent : Agent
  policy : Policy
  use_enhanced_pii : Bool

/-- One collaborator invocation made by `run`, in order. -/
inductive Event where
  | breakGlassMetric
  | traceStripMetric
  | requestMetric (status : String) (latencyMs : Nat) (cost : Value)
  | storeOutcome (record : ValueDict)
  | agentCallFull (task : String) (kw : ValueDict)
  | agentCallTaskOnly (task : String)

/-- Wall-clock readings and timestamps consumed by one `run` invocation:
`latencyMs` is the elapsed reading at wrapper.py line 106, `latencyErrMs`
the (later) reading at line 153. -/
structure RunEnv where
  latencyMs : Nat
  latencyErrMs : Nat
  createdAt : String
  createdAtErr : String
  attTimestamp : String
  bgTimestamp : String

/-- The `BlackBoxResult` dataclass (wrapper.py lines 21-31); `traces` and
`attestation` use `Value.null` for Python `None`. -/
structure BlackBoxResult where
  request_id : String
  status : String
  result : Value
  traces : Value
  latency_ms : Nat
  cost_cents : Value
  input_hash : Option String
  output_hash : Option String
  attestation : Value

/-- `BlackBoxWrapper._parse_agent_result` (wrapper.py lines 178-184). -/
def parseAgentResult (agent_result : Value) : Value × Value × Value :=
  match agent_result with
  | .dict kvs =>
      (dictGetD kvs "result" (.dict kvs), dictGetD kvs "traces" .null,
       dictGetD kvs "cost_cents" (.float 0))
  | v => (v, .null, .float 0)

def optHashVal : Option String → Value
  | some s => .str s
  | none => .null

def strListVal : List String → ValueList
  | [] => .nil
  | s :: t => .cons (.str s) (strListVal t)

def policyValue (p : Policy) : Value :=
  .dict (.cons "black_box" (.bool p.black_box)
    (.cons "keep_hashes" (.bool p.keep_hashes)
      (.cons "include_code_sha" (.bool p.include_code_sha)
        (.cons "include_policy_hash" (.bool p.include_policy_hash)
          (.cons "break_glass_request_ids" (.list (strListVal p.break_glass_request_ids))
            .nil)))))

/-- Modelled from the spec: `AttestationGenerator.generate`
(`attestation.py` is absent from `src/`) — spec section 4.3: the supplied
request/input/output identifiers plus a generation timestamp, a
code-version identifier when `include_code_sha` (the wrapper passes
`"fake_sha_for_demo"`, wrapper.py line 72), and a deterministic hash of the
policy's fields when `include_policy_hash`. -/
def generateAttestation (p : Policy) (request_id : String)
    (input_hash output_hash : Option String) (ts : String) : ValueDict :=
  let base : ValueDict :=
    .cons "request_id" (.str request_id)
      (.cons "input_hash" (optHashVal input_hash)
        (.cons "output_hash" (optHashVal output_hash)
          (.cons "timestamp" (.str ts) .nil)))
  let withSha :=
    if p.include_code_sha then dictSet base "code_sha" (.str "fake_sha_for_demo")
    else base
  if p.include_policy_hash then
    dictSet withSha "policy_hash" (.str (computeHash (policyValue p)))
  else withSha

/-- Agent invocation (wrapper.py lines 90-96): call `run` with the task and
the original keyword parameters, retry with only the task on `TypeError`,
and raise `AttributeError` when the agent has no `run` method.  Returns the
outcome together with the agent calls made. -/
def invokeAgent (ag : Agent) (task : String) (kw : ValueDict) :
    Except String Value × List Event :=
  if ag.hasRun then
    match ag.runFull task kw with
    | .ok v => (.ok v, [.agentCallFull task kw])
    | .raise true _ =>
        match ag.runTaskOnly task with
        | .ok v => (.ok v, [.agentCallFull task kw, .agentCallTaskOnly task])
        | .raise _ m => (.error m, [.agentCallFull task kw, .agentCallTaskOnly task])
    | .raise false m => (.error m, [.agentCallFull task kw])
  else (.error ("Agent " ++ ag.typeName ++ " has no run() method"), [])

/-- The record stored on the failure path (wrapper.py lines 155-163). -/
def errorRecord (request_id m : String) (env : RunEnv) : ValueDict :=
  .cons "request_id" (.str request_id)
    (.cons "status" (.str "error")
      (.cons "error" (.str m)
        (.cons "latency_ms" (.int env.latencyErrMs)
          (.cons "created_at" (.str env.createdAtErr) .nil))))

/-- The `BlackBoxResult` returned on the failure path (wrapper.py 166-176). -/
def errorResult (request_id m : String) (env : RunEnv) : BlackBoxResult :=
  ⟨request_id, "error", .dict (.cons "error" (.str m) .nil), .null,
   env.latencyErrMs, .int 0, none, none, .dict (.cons "error" (.str m) .nil)⟩

/-- The `except Exception` handler (wrapper.py lines 152-176): store an
error outcome (a raise here escapes `run`), record the failure metric with
zero cost, and return the error-shaped result. -/
def errorPath (storeResp : Nat → Except String Unit) (storeIdx : Nat)
    (env : RunEnv) (request_id : String) (ev : List Event) (m : String) :
    Except String (BlackBoxResult × List Event) :=
  match storeResp storeIdx with
  | .error m2 => .error m2
  | .ok _ =>
      .ok (errorResult request_id m env,
           ev ++ [.storeOutcome (errorRecord request_id m env),
                  .requestMetric "error" env.latencyErrMs (.int 0)])

/-- The record stored on the success path (wrapper.py lines 112-122). -/
def successRecord (request_id : String) (input_hash output_hash : Option String)
    (cost : Value) (env : RunEnv) : ValueDict :=
  .cons "request_id" (.str request_id)
    (.cons "status" (.str "success")
      (.cons "input_hash" (optHashVal input_hash)
        (.cons "output_hash" (optHashVal output_hash)
          (.cons "latency_ms" (.int env.latencyMs)
            (.cons "cost_cents" cost
              (.cons "created_at" (.str env.createdAt) .nil))))))

/-- wrapper.py lines 98-150: parse the agent response, strip traces under
black-box policy, hash the pre-redaction result, redact the result for the
enhanced redactor, store the outcome (a raise falls into the handler with
one store call already made), record metrics, and generate the optional
attestation with its break-glass annotation. -/
def successPath (w : Wrapper) (storeResp : Nat → Except String Unit)
    (env : RunEnv) (request_id : String) (is_break_glass : Bool)
    (input_hash : Option String) (ev : List Event) (agent_result : Value) :
    Except String (BlackBoxResult × List Event) :=
  let parsed := parseAgentResult agent_result
  let strip := w.policy.black_box && !is_break_glass
  let traces := if strip then Value.null else parsed.2.1
  let ev1 := ev ++ (if strip then [Event.traceStripMetric] else [])
  let output_hash := if w.policy.keep_hashes then some (computeHash parsed.1) else none
  let result1 := if w.use_enhanced_pii then redactValue parsed.1 else parsed.1
  let record := successRecord request_id input_hash output_hash parsed.2.2 env
  match storeResp 0 with
  | .error m => errorPath storeResp 1 env request_id (ev1 ++ [.storeOutcome record]) m
  | .ok _ =>
      let ev2 := ev1 ++ [.storeOutcome record,
                         .requestMetric "success" env.latencyMs parsed.2.2]
      let att : Value :=
        if w.policy.include_code_sha || w.policy.include_policy_hash then
          let a := generateAttestation w.policy request_id input_hash output_hash
                     env.attTimestamp
          if is_break_glass then
            .dict (dictSet a "break_glass"
              (.dict (.cons "enabled" (.bool true)
                (.cons "reason" (.str "Request ID in break_glass_request_ids")
                  (.cons "timestamp" (.str env.bgTimestamp) .nil)))))
          else .dict a
        else .null
      .ok (⟨request_id, "success", result1, traces, env.latencyMs, parsed.2.2,
            input_hash, output_hash, att⟩, ev2)

/-- The redaction argument of wrapper.py line 87: `{"task": task, "payload": payload}`. -/
def inputDict (task : String) (payload : ValueDict) : Value :=
  .dict (.cons "task" (.str task) (.cons "payload" (.dict payload) .nil))

/-- `BlackBoxWrapper.run` (wrapper.py lines 75-176). An `Except.error`
outcome is an exception escaping `run` (possible only when a storage write
inside the failure handler raises). -/
def run (w : Wrapper) (storeResp : Nat → Except String Unit) (env : RunEnv)
    (request_id task : String) (payload kwargs : ValueDict) :
    Except String (BlackBoxResult × List Event) :=
  let is_break_glass := w.policy.break_glass_request_ids.contains request_id
  let ev0 : List Event := if is_break_glass then [.breakGlassMetric] else []
  let redacted_input := redactValue (inputDict task payload)
  let input_hash := if w.policy.keep_hashes then some (computeHash redacted_input) else none
  let inv := invokeAgent w.agent task (dictAppend payload kwargs)
  let ev1 := ev0 ++ inv.2
  match inv.1 with
  | .error m => errorPath storeResp 0 env request_id ev1 m
  | .ok agent_result =>
      successPath w storeResp env request_id is_break_glass input_hash ev1 agent_result

def isTraceStripEv : Event → Bool
  | .traceStripMetric => true
  | _ => false

def isBreakGlassEv : Event → Bool
  | .breakGlassMetric => true
  | _ => false

def isAgentCallEv : Event → Bool
  | .agentCallFull _ _ => true
  | .agentCallTaskOnly _ => true
  | _ => false

def storeRecords (evs : List Event) : List ValueDict :=
  evs.filterMap (fun e => match e with | .storeOutcome r => some r | _ => none)

/-- The `enabled` entry of the `break_glass` sub-record of an attestation. -/
def breakGlassEnabled (att : Value) : Option Value :=
  match att with
  | .dict d =>
      match dictLookup d "break_glass" with
      | some (.dict b) => dictLookup b "enabled"
      | _ => none
  | _ => none

/-! ## Characterisation lemmas for `run` -/

theorem invokeAgent_events_agentCalls (ag : Agent) (task : String) (kw : ValueDict) :
    ∀ e ∈ (invokeAgent ag task kw).2, isAgentCallEv e = true := by
  unfold invokeAgent
  by_cases h : ag.hasRun
  · cases hf : ag.runFull task kw with
    | ok v => simp [h, hf, isAgentCallEv]
    | raise b m =>
        cases b
        · simp [h, hf, isAgentCallEv]
        · cases hr : ag.runTaskOnly task with
          | ok v => simp [h, hf, hr, isAgentCallEv]
          | raise b2 m2 => simp [h, hf, hr, isAgentCallEv]
  · simp [h]

theorem invokeAgent_countP_traceStrip (ag : Agent) (task : String) (kw : ValueDict) :
    (invokeAgent ag task kw).2.countP isTraceStripEv = 0 := by
  rw [List.countP_eq_zero]
  intro e he
  have h := invokeAgent_events_agentCalls ag task kw e he
  cases e <;> simp_all [isAgentCallEv, isTraceStripEv]

theorem invokeAgent_countP_breakGlass (ag : Agent) (task : String) (kw : ValueDict) :
    (invokeAgent ag task kw).2.countP isBreakGlassEv = 0 := by
  rw [List.countP_eq_zero]
  intro e he
  have h := invokeAgent_events_agentCalls ag task kw e he
  cases e <;> simp_all [isAgentCallEv, isBreakGlassEv]

theorem invokeAgent_storeRecords (ag : Agent) (task : String) (kw : ValueDict) :
    storeRecords (invokeAgent ag task kw).2 = [] := by
  unfold storeRecords
  rw [List.filterMap_eq_nil_iff]
  intro e he
  have h := invokeAgent_events_agentCalls ag task kw e he
  cases e <;> simp_all [isAgentCallEv]

theorem run_eq_success (w : Wrapper) (storeResp : Nat → Except String Unit)
    (env : RunEnv) (request_id task : String) (payload kwargs : ValueDict)
    (ar : Value)
    (hagent : (invokeAgent w.agent task (dictAppend payload kwargs)).1 = .ok ar) :
    run w storeResp env request_id task payload kwargs =
      successPath w storeResp env request_id
        (w.policy.break_glass_request_ids.contains request_id)
        (if w.policy.keep_hashes then
           some (computeHash (redactValue (inputDict task payload))) else none)
        ((if w.policy.break_glass_request_ids.contains request_id then
            [Event.breakGlassMetric] else []) ++
         (invokeAgent w.agent task (dictAppend payload kwargs)).2)
        ar := by
  simp only [run]
  rw [hagent]

theorem run_eq_error (w : Wrapper) (storeResp : Nat → Except String Unit)
    (env : RunEnv) (request_id task : String) (payload kwargs : ValueDict)
    (m : String)
    (hagent : (invokeAgent w.agent task (dictAppend payload kwargs)).1 = .error m) :
    run w storeResp env request_id task payload kwargs =
      errorPath storeResp 0 env request_id
        ((if w.policy.break_glass_request_ids.contains request_id then
            [Event.breakGlassMetric] else []) ++
         (invokeAgent w.agent task (dictAppend payload kwargs)).2)
        m := by
  simp only [run]
  rw [hagent]

/-- C1: when `policy.black_box` is true, the request is not break-glass and
the wrapped agent returns normally, the returned result's `traces` field is
absent (`None`) and `Metrics.record_trace_strip` is invoked exactly once;
when `black_box` is false or the request is break-glass (and the success
path completes), traces pass through unchanged from the parsed agent
response. -/
theorem c1_black_box_suppression
    (w : Wrapper) (storeResp : Nat → Except String Unit) (env : RunEnv)
    (request_id task : String) (payload kwargs : ValueDict)
    (ar : Value) (out : BlackBoxResult × List Event)
    (hagent : (invokeAgent w.agent task (dictAppend payload kwargs)).1 = .ok ar)
    (hrun : run w storeResp env request_id task payload kwargs = .ok out) :
    (w.policy.black_box = true →
     w.policy.break_glass_request_ids.contains request_id = false →
     out.1.traces = .null ∧ out.2.countP isTraceStripEv = 1)
    ∧ ((w.policy.black_box = false ∨
        w.policy.break_glass_request_ids.contains request_id = true) →
       storeResp 0 = .ok () →
       out.1.traces = (parseAgentResult ar).2.1 ∧
       out.2.countP isTraceStripEv = 0) := by
  rw [run_eq_success w storeResp env request_id task payload kwargs ar hagent] at hrun
  constructor
  · intro hbb hnbg
    rw [hnbg] at hrun
    simp only [successPath, hbb] at hrun
    simp only [Bool.not_false, Bool.and_self, if_true, if_false, reduceIte] at hrun
    cases hs : storeResp 0 with
    | ok u =>
        rw [hs] at hrun
        simp only [Except.ok.injEq] at hrun
        subst hrun
        refine ⟨rfl, ?_⟩
        simp [List.countP_append, List.countP_cons, isTraceStripEv,
              invokeAgent_countP_traceStrip]
    | error m =>
        rw [hs] at hrun
        unfold errorPath at hrun
        cases hs2 : storeResp 1 with
        | error m2 => rw [hs2] at hrun; simp at hrun
        | ok u =>
            rw [hs2] at hrun
            simp only [Except.ok.injEq] at hrun
            subst hrun
            refine ⟨rfl, ?_⟩
            simp [List.countP_append, List.countP_cons, isTraceStripEv,
                  invokeAgent_countP_traceStrip]
  · intro hbbor hs0
    have hstrip : (w.policy.black_box &&
        !w.policy.break_glass_request_ids.contains request_id) = false := by
      rcases hbbor with hbb | hbg
      · simp only [hbb, Bool.false_and]
      · simp only [hbg, Bool.not_true, Bool.and_false]
    simp only [successPath, hstrip, Bool.false_eq_true, if_false] at hrun
    rw [hs0] at hrun
    simp only [Except.ok.injEq] at hrun
    subst hrun
    refine ⟨rfl, ?_⟩
    cases hc : w.policy.break_glass_request_ids.contains request_id <;>
      simp [hc, List.countP_append, List.countP_cons, isTraceStripEv,
            invokeAgent_countP_traceStrip]

/-! ## Concrete fixtures for witnesses and counterexamples -/

def defaultBBR : BlackBoxResult :=
  ⟨"", "", .null, .null, 0, .null, none, none, .null⟩

/-- The payload of a returning `run`, for stating concrete facts without
normalising hash digests. -/
def runOut (w : Wrapper) (storeResp : Nat → Except String Unit) (env : RunEnv)
    (request_id task : String) (payload kwargs : ValueDict) :
    BlackBoxResult × List Event :=
  match run w storeResp env request_id task payload kwargs with
  | .ok o => o
  | .error _ => (defaultBBR, [])

/-- Agent response `{"result": "ok", "traces": ["a", "b"], "cost_cents": 1.5}`. -/
def arA : Value :=
  .dict (.cons "result" (.str "ok")
    (.cons "traces" (.list (.cons (.str "a") (.cons (.str "b") .nil)))
      (.cons "cost_cents" (.float (3 / 2)) .nil)))

def agentA : Agent :=
  ⟨"DemoAgent", true, fun _ _ => AgentResp.ok arA, fun _ => AgentResp.ok arA⟩

def storeOk : Nat → Except String Unit := fun _ => .ok ()

def envA : RunEnv :=
  ⟨7, 9, "2025-01-01T00:00:00", "2025-01-01T00:00:01",
   "2025-01-01T00:00:02", "2025-01-01T00:00:03"⟩

def polA : Policy := ⟨true, false, false, false, ["bg1"]⟩

def wrapA : Wrapper := ⟨agentA, polA, false⟩

/-- Witness for C1: a concrete black-box, non-break-glass run with a
normally-returning agent. -/
theorem c1_witness :
    (invokeAgent wrapA.agent "t" (dictAppend .nil .nil)).1 = .ok arA ∧
    run wrapA storeOk envA "r1" "t" .nil .nil =
      .ok (runOut wrapA storeOk envA "r1" "t" .nil .nil) ∧
    wrapA.policy.black_box = true ∧
    wrapA.policy.break_glass_request_ids.contains "r1" = false ∧
    ((runOut wrapA storeOk envA "r1" "t" .nil .nil).1.traces = .null ∧
     (runOut wrapA storeOk envA "r1" "t" .nil .nil).2.countP isTraceStripEv = 1) := by
  refine ⟨rfl, rfl, rfl, rfl, ?_⟩
  exact (c1_black_box_suppression wrapA storeOk envA "r1" "t" .nil .nil arA _
    rfl rfl).1 rfl rfl

/-- C2: for a break-glass request, `Metrics.record_break_glass` is notified
exactly once; when the agent returns normally and the success store
completes, traces are preserved unchanged even under `black_box`, and any
generated attestation carries a `break_glass` sub-record with
`enabled = true`. -/
theorem c2_break_glass_exemption
    (w : Wrapper) (storeResp : Nat → Except String Unit) (env : RunEnv)
    (request_id task : String) (payload kwargs : ValueDict)
    (ar : Value) (out : BlackBoxResult × List Event)
    (hbg : w.policy.break_glass_request_ids.contains request_id = true)
    (hrun : run w storeResp env request_id task payload kwargs = .ok out) :
    out.2.countP isBreakGlassEv = 1 ∧
    ((invokeAgent w.agent task (dictAppend payload kwargs)).1 = .ok ar →
     storeResp 0 = .ok () →
     out.1.traces = (parseAgentResult ar).2.1 ∧
     ((w.policy.include_code_sha || w.policy.include_policy_hash) = true →
      breakGlassEnabled out.1.attestation = some (.bool true))) := by
  have hmem : request_id ∈ w.policy.break_glass_request_ids := by simpa using hbg
  constructor
  · cases hinv : (invokeAgent w.agent task (dictAppend payload kwargs)).1 with
    | error m =>
        rw [run_eq_error w storeResp env request_id task payload kwargs m hinv]
          at hrun
        unfold errorPath at hrun
        cases hs : storeResp 0 with
        | error m2 => rw [hs] at hrun; simp at hrun
        | ok u =>
            rw [hs] at hrun
            simp only [Except.ok.injEq] at hrun
            subst hrun
            simp [hmem, List.countP_append, List.countP_cons, isBreakGlassEv,
                  invokeAgent_countP_breakGlass]
    | ok ar2 =>
        rw [run_eq_success w storeResp env request_id task payload kwargs ar2 hinv]
          at hrun
        simp only [successPath, hbg, Bool.not_true, Bool.and_false,
                   Bool.false_eq_true, if_false, if_true] at hrun
        cases hs : storeResp 0 with
        | ok u =>
            rw [hs] at hrun
            simp only [Except.ok.injEq] at hrun
            subst hrun
            simp [hmem, List.countP_append, List.countP_cons, isBreakGlassEv,
                  invokeAgent_countP_breakGlass]
        | error m =>
            rw [hs] at hrun
            unfold errorPath at hrun
            cases hs2 : storeResp 1 with
            | error m2 => rw [hs2] at hrun; simp at hrun
            | ok u =>
                rw [hs2] at hrun
                simp only [Except.ok.injEq] at hrun
                subst hrun
                simp [hmem, List.countP_append, List.countP_cons, isBreakGlassEv,
                      invokeAgent_countP_breakGlass]
  · intro hag hs0
    rw [run_eq_success w storeResp env request_id task payload kwargs ar hag]
      at hrun
    simp only [successPath, hbg, Bool.not_true, Bool.and_false,
               Bool.false_eq_true, if_false, if_true] at hrun
    rw [hs0] at hrun
    simp only [Except.ok.injEq] at hrun
    subst hrun
    refine ⟨rfl, ?_⟩
    intro hfl
    simp only [hfl, if_true]
    simp [breakGlassEnabled, dictLookup_dictSet_self, dictLookup]

def polB : Policy := ⟨true, true, true, false, ["bg1"]⟩

def wrapB : Wrapper := ⟨agentA, polB, true⟩

/-- Witness for C2: a concrete break-glass run under `black_box = true`
with attestation generation enabled. -/
theorem c2_witness :
    wrapB.policy.break_glass_request_ids.contains "bg1" = true ∧
    run wrapB storeOk envA "bg1" "t" .nil .nil =
      .ok (runOut wrapB storeOk envA "bg1" "t" .nil .nil) ∧
    (invokeAgent wrapB.agent "t" (dictAppend .nil .nil)).1 = .ok arA ∧
    storeOk 0 = .ok () ∧
    (wrapB.policy.include_code_sha || wrapB.policy.include_policy_hash) = true ∧
    ((runOut wrapB storeOk envA "bg1" "t" .nil .nil).2.countP isBreakGlassEv = 1 ∧
     (runOut wrapB storeOk envA "bg1" "t" .nil .nil).1.traces =
       (parseAgentResult arA).2.1 ∧
     breakGlassEnabled
       (runOut wrapB storeOk envA "bg1" "t" .nil .nil).1.attestation =
         some (.bool true)) := by
  refine ⟨rfl, rfl, rfl, rfl, rfl, ?_, ?_, ?_⟩
  · exact (c2_break_glass_exemption wrapB storeOk envA "bg1" "t" .nil .nil arA _
      rfl rfl).1
  · exact ((c2_break_glass_exemption wrapB storeOk envA "bg1" "t" .nil .nil arA _
      rfl rfl).2 rfl rfl).1
  · exact ((c2_break_glass_exemption wrapB storeOk envA "bg1" "t" .nil .nil arA _
      rfl rfl).2 rfl rfl).2 rfl

/-! ## A three-way shape characterisation of returning `run` invocations -/

def bgEvents (w : Wrapper) (request_id : String) : List Event :=
  if w.policy.break_glass_request_ids.contains request_id then
    [Event.breakGlassMetric] else []

def stripEvents (w : Wrapper) (request_id : String) : List Event :=
  if w.policy.black_box && !w.policy.break_glass_request_ids.contains request_id then
    [Event.traceStripMetric] else []

/-- The success-path `BlackBoxResult` as an explicit function of the
request, mirroring wrapper.py lines 140-150. -/
def successResult (w : Wrapper) (env : RunEnv) (request_id task : String)
    (payload : ValueDict) (ar : Value) : BlackBoxResult :=
  let parsed := parseAgentResult ar
  let strip := w.policy.black_box &&
               !w.policy.break_glass_request_ids.contains request_id
  let ih := if w.policy.keep_hashes then
              some (computeHash (redactValue (inputDict task payload))) else none
  let oh := if w.policy.keep_hashes then some (computeHash parsed.1) else none
  ⟨request_id, "success",
   (if w.use_enhanced_pii then redactValue parsed.1 else parsed.1),
   (if strip then Value.null else parsed.2.1),
   env.latencyMs, parsed.2.2, ih, oh,
   (if w.policy.include_code_sha || w.policy.include_policy_hash then
      (if w.policy.break_glass_request_ids.contains request_id then
         .dict (dictSet (generateAttestation w.policy request_id ih oh env.attTimestamp)
           "break_glass"
           (.dict (.cons "enabled" (.bool true)
             (.cons "reason" (.str "Request ID in break_glass_request_ids")
               (.cons "timestamp" (.str env.bgTimestamp) .nil)))))
       else .dict (generateAttestation w.policy request_id ih oh env.attTimestamp))
    else .null)⟩

/-- The record stored by the success path, as a function of the request. -/
def successStoreRecord (w : Wrapper) (env : RunEnv) (request_id task : String)
    (payload : ValueDict) (ar : Value) : ValueDict :=
  successRecord request_id
    (if w.policy.keep_hashes then
       some (computeHash (redactValue (inputDict task payload))) else none)
    (if w.policy.keep_hashes then
       some (computeHash (parseAgentResult ar).1) else none)
    (parseAgentResult ar).2.2 env

/-- Every returning `run` invocation has one of exactly three shapes:
success; agent failure contained by the handler; or success-path store
failure contained by the handler (with the second store call succeeding). -/
theorem run_ok_shape
    (w : Wrapper) (storeResp : Nat → Except String Unit) (env : RunEnv)
    (request_id task : String) (payload kwargs : ValueDict)
    (out : BlackBoxResult × List Event)
    (hrun : run w storeResp env request_id task payload kwargs = .ok out) :
    (∃ ar, (invokeAgent w.agent task (dictAppend payload kwargs)).1 = .ok ar ∧
       storeResp 0 = .ok () ∧
       out = (successResult w env request_id task payload ar,
              bgEvents w request_id ++
              (invokeAgent w.agent task (dictAppend payload kwargs)).2 ++
              stripEvents w request_id ++
              [.storeOutcome (successStoreRecord w env request_id task payload ar),
               .requestMetric "success" env.latencyMs (parseAgentResult ar).2.2]))
  ∨ (∃ m, (invokeAgent w.agent task (dictAppend payload kwargs)).1 = .error m ∧
       storeResp 0 = .ok () ∧
       out = (errorResult request_id m env,
              bgEvents w request_id ++
              (invokeAgent w.agent task (dictAppend payload kwargs)).2 ++
              [.storeOutcome (errorRecord request_id m env),
               .requestMetric "error" env.latencyErrMs (.int 0)]))
  ∨ (∃ ar m, (invokeAgent w.agent task (dictAppend payload kwargs)).1 = .ok ar ∧
       storeResp 0 = .error m ∧ storeResp 1 = .ok () ∧
       out = (errorResult request_id m env,
              bgEvents w request_id ++
              (invokeAgent w.agent task (dictAppend payload kwargs)).2 ++
              stripEvents w request_id ++
              [.storeOutcome (successStoreRecord w env request_id task payload ar),
               .storeOutcome (errorRecord request_id m env),
               .requestMetric "error" env.latencyErrMs (.int 0)])) := by
  cases hinv : (invokeAgent w.agent task (dictAppend payload kwargs)).1 with
  | ok ar =>
      rw [run_eq_success w storeResp env request_id task payload kwargs ar hinv]
        at hrun
      simp only [successPath] at hrun
      cases hs0 : storeResp 0 with
      | ok u =>
          rw [hs0] at hrun
          simp only [Except.ok.injEq] at hrun
          left
          refine ⟨ar, rfl, rfl, ?_⟩
          rw [← hrun]
          simp [successResult, successStoreRecord, bgEvents, stripEvents,
                List.append_assoc]
      | error m =>
          rw [hs0] at hrun
          unfold errorPath at hrun
          cases hs1 : storeResp 1 with
          | error m2 => rw [hs1] at hrun; simp at hrun
          | ok u =>
              rw [hs1] at hrun
              simp only [Except.ok.injEq] at hrun
              right; right
              refine ⟨ar, m, rfl, rfl, rfl, ?_⟩
              rw [← hrun]
              simp [successStoreRecord, bgEvents, stripEvents, List.append_assoc]
  | error m =>
      rw [run_eq_error w storeResp env request_id task payload kwargs m hinv]
        at hrun
      unfold errorPath at hrun
      cases hs0 : storeResp 0 with
      | error m2 => rw [hs0] at hrun; simp at hrun
      | ok u =>
          rw [hs0] at hrun
          simp only [Except.ok.injEq] at hrun
          right; left
          refine ⟨m, rfl, rfl, ?_⟩
          rw [← hrun]
          simp [bgEvents, List.append_assoc]

theorem storeRecords_append (l1 l2 : List Event) :
    storeRecords (l1 ++ l2) = storeRecords l1 ++ storeRecords l2 :=
  List.filterMap_append l1 l2 _

def agentErr : Agent :=
  ⟨"FailingAgent", true, fun _ _ => AgentResp.raise false "boom",
   fun _ => AgentResp.raise false "boom"⟩

def storeFailAll : Nat → Except String Unit := fun _ => .error "db down"

def wrapErr : Wrapper := ⟨agentErr, polA, false⟩

/-- Counterexample to C3 as stated: when the wrapped agent's invocation
raises and the failure-handler's own storage write also raises, the
exception escapes `run` (wrapper.py line 155 sits inside the `except`
block with no further protection), contradicting "no exception ever
escapes run". -/
theorem c3_counterexample :
    (invokeAgent wrapErr.agent "t" (dictAppend .nil .nil)).1 = .error "boom" ∧
    run wrapErr storeFailAll envA "r1" "t" .nil .nil = .error "db down" :=
  ⟨rfl, rfl⟩

/-- C3 (amended): when the agent invocation raises and the failure-path
storage write succeeds, `run` returns (propagating nothing) an error-status
result with the failure's description, latency measured at the failure,
traces and both hashes absent, an attestation-shaped error payload, one
persisted error record, and a zero-cost failure metric. -/
theorem c3_error_containment
    (w : Wrapper) (storeResp : Nat → Except String Unit) (env : RunEnv)
    (request_id task : String) (payload kwargs : ValueDict) (m : String)
    (hag : (invokeAgent w.agent task (dictAppend payload kwargs)).1 = .error m)
    (hs : storeResp 0 = .ok ()) :
    ∃ out, run w storeResp env request_id task payload kwargs = .ok out ∧
      out.1.status = "error" ∧
      out.1.result = .dict (.cons "error" (.str m) .nil) ∧
      out.1.traces = .null ∧
      out.1.latency_ms = env.latencyErrMs ∧
      out.1.cost_cents = .int 0 ∧
      out.1.input_hash = none ∧
      out.1.output_hash = none ∧
      out.1.attestation = .dict (.cons "error" (.str m) .nil) ∧
      storeRecords out.2 = [errorRecord request_id m env] ∧
      Event.requestMetric "error" env.latencyErrMs (.int 0) ∈ out.2 := by
  refine ⟨(errorResult request_id m env,
           bgEvents w request_id ++
           (invokeAgent w.agent task (dictAppend payload kwargs)).2 ++
           [.storeOutcome (errorRecord request_id m env),
            .requestMetric "error" env.latencyErrMs (.int 0)]),
          ?_, rfl, rfl, rfl, rfl, rfl, rfl, rfl, rfl, ?_, ?_⟩
  · rw [run_eq_error w storeResp env request_id task payload kwargs m hag]
    unfold errorPath
    rw [hs]
    simp [bgEvents, List.append_assoc]
  · rw [storeRecords_append, storeRecords_append, invokeAgent_storeRecords]
    cases hc : w.policy.break_glass_request_ids.contains request_id <;>
      simp [bgEvents, hc, storeRecords]
  · simp

/-- Witness for C3 (amended) at a concrete failing agent. -/
theorem c3_witness :
    (invokeAgent wrapErr.agent "t" (dictAppend .nil .nil)).1 = .error "boom" ∧
    storeOk 0 = .ok () ∧
    (∃ out, run wrapErr storeOk envA "r1" "t" .nil .nil = .ok out ∧
      out.1.status = "error" ∧
      out.1.result = .dict (.cons "error" (.str "boom") .nil) ∧
      out.1.traces = .null ∧
      out.1.latency_ms = envA.latencyErrMs ∧
      out.1.cost_cents = .int 0 ∧
      out.1.input_hash = none ∧
      out.1.output_hash = none ∧
      out.1.attestation = .dict (.cons "error" (.str "boom") .nil) ∧
      storeRecords out.2 = [errorRecord "r1" "boom" envA] ∧
      Event.requestMetric "error" envA.latencyErrMs (.int 0) ∈ out.2) :=
  ⟨rfl, rfl, c3_error_containment wrapErr storeOk envA "r1" "t" .nil .nil "boom" rfl rfl⟩

def polHash : Policy := ⟨false, true, false, false, []⟩

def wrapErrHash : Wrapper := ⟨agentErr, polHash, false⟩

/-- Counterexample to C4 as stated: with `keep_hashes = true` and a raising
agent, the returned result carries no hashes — "present if and only if
`policy.keep_hashes` is true" fails on the error path (wrapper.py lines
173-174 hard-code `None`). -/
theorem c4_counterexample :
    wrapErrHash.policy.keep_hashes = true ∧
    run wrapErrHash storeOk envA "r1" "t" .nil .nil =
      .ok (runOut wrapErrHash storeOk envA "r1" "t" .nil .nil) ∧
    (runOut wrapErrHash storeOk envA "r1" "t" .nil .nil).1.input_hash = none ∧
    (runOut wrapErrHash storeOk envA "r1" "t" .nil .nil).1.output_hash = none :=
  ⟨rfl, rfl, rfl, rfl⟩

/-- C4 (amended): hashes are present iff the result has success status and
`policy.keep_hashes` is true (error results never carry hashes); on success
the input hash is a deterministic function of the redacted request input;
and every present hash is a 64-character string over the lowercase hex
alphabet (an SHA-256 hexdigest). -/
theorem c4_hash_gating
    (w : Wrapper) (storeResp : Nat → Except String Unit) (env : RunEnv)
    (request_id task : String) (payload kwargs : ValueDict)
    (out : BlackBoxResult × List Event)
    (hrun : run w storeResp env request_id task payload kwargs = .ok out) :
    (out.1.input_hash.isSome = ((out.1.status == "success") && w.policy.keep_hashes)) ∧
    (out.1.output_hash.isSome = ((out.1.status == "success") && w.policy.keep_hashes)) ∧
    (out.1.status = "success" →
      out.1.input_hash =
        (if w.policy.keep_hashes then
           some (computeHash (redactValue (inputDict task payload))) else none)) ∧
    (∀ h, (out.1.input_hash = some h ∨ out.1.output_hash = some h) →
      h.length = 64 ∧ ∀ c ∈ h.data, c ∈ hexDigitChars) := by
  rcases run_ok_shape w storeResp env request_id task payload kwargs out hrun with
    ⟨ar, hag, hs0, rfl⟩ | ⟨m, hag, hs0, rfl⟩ | ⟨ar, m, hag, hs0, hs1, rfl⟩
  · refine ⟨?_, ?_, ?_, ?_⟩
    · cases hk : w.policy.keep_hashes <;> simp [successResult, hk]
    · cases hk : w.policy.keep_hashes <;> simp [successResult, hk]
    · intro _
      cases hk : w.policy.keep_hashes <;> simp [successResult, hk]
    · intro h hor
      cases hk : w.policy.keep_hashes
      · rcases hor with h1 | h1 <;> simp [successResult, hk] at h1
      · rcases hor with h1 | h1 <;>
          · simp [successResult, hk] at h1
            subst h1
            exact ⟨computeHash_length _, computeHash_chars _⟩
  · refine ⟨by simp [errorResult], by simp [errorResult], ?_, ?_⟩
    · intro hst
      exact absurd hst (by simp [errorResult])
    · intro h hor
      rcases hor with h1 | h1 <;> simp [errorResult] at h1
  · refine ⟨by simp [errorResult], by simp [errorResult], ?_, ?_⟩
    · intro hst
      exact absurd hst (by simp [errorResult])
    · intro h hor
      rcases hor with h1 | h1 <;> simp [errorResult] at h1

/-- Witness for C4 (amended) at a concrete hashing success run. -/
theorem c4_witness :
    run wrapB storeOk envA "r1" "t" .nil .nil =
      .ok (runOut wrapB storeOk envA "r1" "t" .nil .nil) ∧
    wrapB.policy.keep_hashes = true ∧
    (((runOut wrapB storeOk envA "r1" "t" .nil .nil).1.input_hash.isSome =
      (((runOut wrapB storeOk envA "r1" "t" .nil .nil).1.status == "success") &&
        wrapB.policy.keep_hashes)) ∧
     ((runOut wrapB storeOk envA "r1" "t" .nil .nil).1.output_hash.isSome =
      (((runOut wrapB storeOk envA "r1" "t" .nil .nil).1.status == "success") &&
        wrapB.policy.keep_hashes)) ∧
     ((runOut wrapB storeOk envA "r1" "t" .nil .nil).1.status = "success" →
       (runOut wrapB storeOk envA "r1" "t" .nil .nil).1.input_hash =
         (if wrapB.policy.keep_hashes then
            some (computeHash (redactValue (inputDict "t" .nil))) else none)) ∧
     (∀ h, ((runOut wrapB storeOk envA "r1" "t" .nil .nil).1.input_hash = some h ∨
            (runOut wrapB storeOk envA "r1" "t" .nil .nil).1.output_hash = some h) →
       h.length = 64 ∧ ∀ c ∈ h.data, c ∈ hexDigitChars)) :=
  ⟨rfl, rfl, c4_hash_gating wrapB storeOk envA "r1" "t" .nil .nil _ rfl⟩

/-- Counterexample to C5 as stated: on a mapping without a `result` key the
claim demands "no traces and zero cost", but `_parse_agent_result` still
extracts `traces` and `cost_cents` (wrapper.py lines 181-182 run on every
dict). -/
theorem c5_counterexample :
    (parseAgentResult (.dict (.cons "traces" (.list (.cons (.str "a") .nil))
        (.cons "cost_cents" (.float 5) .nil)))).2.1 =
      .list (.cons (.str "a") .nil) ∧
    (parseAgentResult (.dict (.cons "traces" (.list (.cons (.str "a") .nil))
        (.cons "cost_cents" (.float 5) .nil)))).2.2 = .float 5 ∧
    ¬ ((parseAgentResult (.dict (.cons "traces" (.list (.cons (.str "a") .nil))
          (.cons "cost_cents" (.float 5) .nil)))).2.1 = .null ∧
       (parseAgentResult (.dict (.cons "traces" (.list (.cons (.str "a") .nil))
          (.cons "cost_cents" (.float 5) .nil)))).2.2 = .float 0) := by
  refine ⟨rfl, rfl, ?_⟩
  rintro ⟨h1, -⟩
  exact Value.noConfusion h1

/-- C5 (amended): on any mapping, `result` defaults to the entire mapping
when the `result` key is absent, while `traces` (default absent) and
`cost_cents` (default 0) are extracted regardless of whether `result` is
present; a non-mapping return value becomes `result` wholesale with no
traces and zero cost. -/
theorem c5_parse_classification :
    (∀ kvs : ValueDict,
      (∀ r, dictLookup kvs "result" = some r →
        (parseAgentResult (.dict kvs)).1 = r) ∧
      (dictLookup kvs "result" = none →
        (parseAgentResult (.dict kvs)).1 = .dict kvs) ∧
      (parseAgentResult (.dict kvs)).2.1 = (dictLookup kvs "traces").getD .null ∧
      (parseAgentResult (.dict kvs)).2.2 =
        (dictLookup kvs "cost_cents").getD (.float 0)) ∧
    (∀ v : Value, (∀ kvs, v ≠ .dict kvs) →
      parseAgentResult v = (v, .null, .float 0)) := by
  constructor
  · intro kvs
    refine ⟨?_, ?_, ?_, ?_⟩
    · intro r hr
      simp [parseAgentResult, dictGetD_eq_lookup, hr]
    · intro hr
      simp [parseAgentResult, dictGetD_eq_lookup, hr]
    · simp [parseAgentResult, dictGetD_eq_lookup]
    · simp [parseAgentResult, dictGetD_eq_lookup]
  · intro v hv
    cases v with
    | dict kvs => exact absurd rfl (hv kvs)
    | str s => rfl
    | int n => rfl
    | float q => rfl
    | bool b => rfl
    | null => rfl
    | list xs => rfl

/-- Witness for C5 (amended) at concrete mapping and non-mapping returns. -/
theorem c5_witness :
    dictLookup (.cons "result" (.str "r") .nil) "result" = some (.str "r") ∧
    (parseAgentResult (.dict (.cons "result" (.str "r") .nil))).1 = .str "r" ∧
    parseAgentResult (.int 3) = (.int 3, .null, .float 0) := by
  refine ⟨rfl, ?_, ?_⟩
  · exact (c5_parse_classification.1 (.cons "result" (.str "r") .nil)).1 (.str "r") rfl
  · exact c5_parse_classification.2 (.int 3) (fun kvs h => Value.noConfusion h)

theorem storeRecords_bgEvents (w : Wrapper) (request_id : String) :
    storeRecords (bgEvents w request_id) = [] := by
  unfold bgEvents
  cases w.policy.break_glass_request_ids.contains request_id <;>
    simp [storeRecords]

theorem storeRecords_stripEvents (w : Wrapper) (request_id : String) :
    storeRecords (stripEvents w request_id) = [] := by
  unfold stripEvents
  cases (w.policy.black_box &&
      !w.policy.break_glass_request_ids.contains request_id) <;>
    simp [storeRecords]

/-- Counterexample to C6 as stated: a successful run persists exactly one
record, but its fields are `request_id, status, input_hash, output_hash,
latency_ms, cost_cents, created_at` — no `attestation` field (wrapper.py
lines 112-122; the attestation is generated only afterwards, lines
126-132). -/
theorem c6_counterexample :
    run wrapA storeOk envA "r1" "t" .nil .nil =
      .ok (runOut wrapA storeOk envA "r1" "t" .nil .nil) ∧
    (runOut wrapA storeOk envA "r1" "t" .nil .nil).1.status = "success" ∧
    storeRecords (runOut wrapA storeOk envA "r1" "t" .nil .nil).2 =
      [successStoreRecord wrapA envA "r1" "t" .nil arA] ∧
    dictKeys (successStoreRecord wrapA envA "r1" "t" .nil arA) =
      ["request_id", "status", "input_hash", "output_hash", "latency_ms",
       "cost_cents", "created_at"] ∧
    "attestation" ∉ dictKeys (successStoreRecord wrapA envA "r1" "t" .nil arA) := by
  refine ⟨rfl, rfl, rfl, rfl, ?_⟩
  decide

/-- C6 (amended): every successful run persists exactly one outcome record
via the Storage collaborator, whose fields are exactly `request_id, status,
input_hash, output_hash, latency_ms, cost_cents, created_at` (in insertion
order, without an `attestation` field), keyed by the request id with
status `success`. -/
theorem c6_outcome_persistence
    (w : Wrapper) (storeResp : Nat → Except String Unit) (env : RunEnv)
    (request_id task : String) (payload kwargs : ValueDict)
    (ar : Value) (out : BlackBoxResult × List Event)
    (hag : (invokeAgent w.agent task (dictAppend payload kwargs)).1 = .ok ar)
    (hs0 : storeResp 0 = .ok ())
    (hrun : run w storeResp env request_id task payload kwargs = .ok out) :
    storeRecords out.2 = [successStoreRecord w env request_id task payload ar] ∧
    dictKeys (successStoreRecord w env request_id task payload ar) =
      ["request_id", "status", "input_hash", "output_hash", "latency_ms",
       "cost_cents", "created_at"] ∧
    dictLookup (successStoreRecord w env request_id task payload ar)
      "request_id" = some (.str request_id) ∧
    dictLookup (successStoreRecord w env request_id task payload ar)
      "status" = some (.str "success") := by
  rcases run_ok_shape w storeResp env request_id task payload kwargs out hrun with
    ⟨ar2, hag2, hs2, rfl⟩ | ⟨m, hag2, hs2, rfl⟩ | ⟨ar2, m, hag2, hs2, hs3, rfl⟩
  · have har : ar2 = ar := by
      rw [hag] at hag2
      exact (Except.ok.injEq _ _ ▸ hag2).symm
    subst har
    refine ⟨?_, ?_, ?_, ?_⟩
    · simp only [storeRecords_append, storeRecords_bgEvents,
                  storeRecords_stripEvents, invokeAgent_storeRecords]
      simp [storeRecords]
    · simp [successStoreRecord, successRecord, dictKeys]
    · simp [successStoreRecord, successRecord, dictLookup]
    · simp [successStoreRecord, successRecord, dictLookup]
  · rw [hag] at hag2
    exact Except.noConfusion hag2
  · rw [hs0] at hs2
    exact Except.noConfusion hs2

/-- Witness for C6 (amended) at a concrete successful run. -/
theorem c6_witness :
    (invokeAgent wrapA.agent "t" (dictAppend .nil .nil)).1 = .ok arA ∧
    storeOk 0 = .ok () ∧
    run wrapA storeOk envA "r1" "t" .nil .nil =
      .ok (runOut wrapA storeOk envA "r1" "t" .nil .nil) ∧
    (storeRecords (runOut wrapA storeOk envA "r1" "t" .nil .nil).2 =
       [successStoreRecord wrapA envA "r1" "t" .nil arA] ∧
     dictKeys (successStoreRecord wrapA envA "r1" "t" .nil arA) =
       ["request_id", "status", "input_hash", "output_hash", "latency_ms",
        "cost_cents", "created_at"] ∧
     dictLookup (successStoreRecord wrapA envA "r1" "t" .nil arA)
       "request_id" = some (.str "r1") ∧
     dictLookup (successStoreRecord wrapA envA "r1" "t" .nil arA)
       "status" = some (.str "success")) :=
  ⟨rfl, rfl, rfl,
   c6_outcome_persistence wrapA storeOk envA "r1" "t" .nil .nil arA _ rfl rfl rfl⟩

theorem invokeAgent_full_mem (ag : Agent) (task : String) (kw : ValueDict)
    (h : ag.hasRun = true) :
    Event.agentCallFull task kw ∈ (invokeAgent ag task kw).2 := by
  unfold invokeAgent
  cases hf : ag.runFull task kw with
  | ok v => simp [h, hf]
  | raise b m =>
      cases b
      · simp [h, hf]
      · cases hr : ag.runTaskOnly task <;> simp [h, hf, hr]

theorem invokeAgent_retry_mem (ag : Agent) (task : String) (kw : ValueDict)
    (msg : String) (h : ag.hasRun = true)
    (hf : ag.runFull task kw = .raise true msg) :
    Event.agentCallTaskOnly task ∈ (invokeAgent ag task kw).2 := by
  unfold invokeAgent
  cases hr : ag.runTaskOnly task <;> simp [h, hf, hr]

theorem invokeAgent_noRun (ag : Agent) (task : String) (kw : ValueDict)
    (h : ag.hasRun = false) :
    invokeAgent ag task kw =
      (.error ("Agent " ++ ag.typeName ++ " has no run() method"), []) := by
  unfold invokeAgent
  simp [h]

/-- C7: on every returning invocation, an agent exposing `run` is called
with the task and the original (unredacted) payload and extra parameters;
a `TypeError` from that call triggers exactly one retry with only the task;
and an agent without a `run` method produces a configuration-error outcome
("... has no run() method") with zero agent calls (no retry). -/
theorem c7_agent_invocation
    (w : Wrapper) (storeResp : Nat → Except String Unit) (env : RunEnv)
    (request_id task : String) (payload kwargs : ValueDict)
    (out : BlackBoxResult × List Event)
    (hrun : run w storeResp env request_id task payload kwargs = .ok out) :
    (w.agent.hasRun = true →
      Event.agentCallFull task (dictAppend payload kwargs) ∈ out.2) ∧
    (∀ msg, w.agent.hasRun = true →
      w.agent.runFull task (dictAppend payload kwargs) = .raise true msg →
      Event.agentCallTaskOnly task ∈ out.2) ∧
    (w.agent.hasRun = false →
      out.1.status = "error" ∧
      out.1.result = .dict (.cons "error"
        (.str ("Agent " ++ w.agent.typeName ++ " has no run() method")) .nil) ∧
      out.2.countP isAgentCallEv = 0) := by
  rcases run_ok_shape w storeResp env request_id task payload kwargs out hrun with
    ⟨ar, hag, hs0, rfl⟩ | ⟨m, hag, hs0, rfl⟩ | ⟨ar, m2, hag, hs0, hs1, rfl⟩ <;>
    refine ⟨?_, ?_, ?_⟩
  · intro h
    have hm := invokeAgent_full_mem w.agent task (dictAppend payload kwargs) h
    simp [List.mem_append, hm]
  · intro msg h hf
    have hm := invokeAgent_retry_mem w.agent task (dictAppend payload kwargs) msg h hf
    simp [List.mem_append, hm]
  · intro h
    rw [(invokeAgent_noRun w.agent task (dictAppend payload kwargs) h)] at hag
    exact Except.noConfusion hag
  · intro h
    have hm := invokeAgent_full_mem w.agent task (dictAppend payload kwargs) h
    simp [List.mem_append, hm]
  · intro msg h hf
    have hm := invokeAgent_retry_mem w.agent task (dictAppend payload kwargs) msg h hf
    simp [List.mem_append, hm]
  · intro h
    have hinv := invokeAgent_noRun w.agent task (dictAppend payload kwargs) h
    rw [hinv] at hag
    have hm : m = "Agent " ++ w.agent.typeName ++ " has no run() method" := by
      exact (Except.error.injEq _ _ ▸ hag).symm
    subst hm
    refine ⟨rfl, rfl, ?_⟩
    rw [hinv]
    cases hc : w.policy.break_glass_request_ids.contains request_id <;>
      simp [bgEvents, hc, List.countP_append, List.countP_cons, isAgentCallEv]
  · intro h
    have hm := invokeAgent_full_mem w.agent task (dictAppend payload kwargs) h
    simp [List.mem_append, hm]
  · intro msg h hf
    have hm := invokeAgent_retry_mem w.agent task (dictAppend payload kwargs) msg h hf
    simp [List.mem_append, hm]
  · intro h
    rw [(invokeAgent_noRun w.agent task (dictAppend payload kwargs) h)] at hag
    exact Except.noConfusion hag

def agentRetry : Agent :=
  ⟨"RetryAgent", true, fun _ _ => AgentResp.raise true "unexpected keyword argument",
   fun _ => AgentResp.ok arA⟩

def wrapRetry : Wrapper := ⟨agentRetry, polA, false⟩

def agentNoRun : Agent :=
  ⟨"NoRunAgent", false, fun _ _ => AgentResp.ok .null, fun _ => AgentResp.ok .null⟩

def wrapNoRun : Wrapper := ⟨agentNoRun, polA, false⟩

/-- Witness for C7: a concrete retrying agent and a concrete agent with no
`run` method. -/
theorem c7_witness :
    run wrapRetry storeOk envA "r1" "t" .nil .nil =
      .ok (runOut wrapRetry storeOk envA "r1" "t" .nil .nil) ∧
    wrapRetry.agent.hasRun = true ∧
    wrapRetry.agent.runFull "t" (dictAppend .nil .nil) =
      .raise true "unexpected keyword argument" ∧
    Event.agentCallFull "t" (dictAppend .nil .nil) ∈
      (runOut wrapRetry storeOk envA "r1" "t" .nil .nil).2 ∧
    Event.agentCallTaskOnly "t" ∈
      (runOut wrapRetry storeOk envA "r1" "t" .nil .nil).2 ∧
    run wrapNoRun storeOk envA "r2" "t" .nil .nil =
      .ok (runOut wrapNoRun storeOk envA "r2" "t" .nil .nil) ∧
    wrapNoRun.agent.hasRun = false ∧
    ((runOut wrapNoRun storeOk envA "r2" "t" .nil .nil).1.status = "error" ∧
     (runOut wrapNoRun storeOk envA "r2" "t" .nil .nil).1.result =
       .dict (.cons "error"
         (.str ("Agent " ++ wrapNoRun.agent.typeName ++ " has no run() method")) .nil) ∧
     (runOut wrapNoRun storeOk envA "r2" "t" .nil .nil).2.countP isAgentCallEv = 0) := by
  refine ⟨rfl, rfl, rfl, ?_, ?_, rfl, rfl, ?_⟩
  · exact (c7_agent_invocation wrapRetry storeOk envA "r1" "t" .nil .nil _ rfl).1 rfl
  · exact (c7_agent_invocation wrapRetry storeOk envA "r1" "t" .nil .nil _ rfl).2.1
      "unexpected keyword argument" rfl rfl
  · exact (c7_agent_invocation wrapNoRun storeOk envA "r2" "t" .nil .nil _ rfl).2.2 rfl

/-- C8: on a successful hashing run with the enhanced redactor, the output
hash is computed over the parsed agent result before any redaction, while
the returned `result` is the redacted copy — the hash attests to the
pre-redaction content. -/
theorem c8_hash_before_redaction
    (w : Wrapper) (storeResp : Nat → Except String Unit) (env : RunEnv)
    (request_id task : String) (payload kwargs : ValueDict)
    (ar : Value) (out : BlackBoxResult × List Event)
    (hag : (invokeAgent w.agent task (dictAppend payload kwargs)).1 = .ok ar)
    (hs0 : storeResp 0 = .ok ())
    (hk : w.policy.keep_hashes = true)
    (he : w.use_enhanced_pii = true)
    (hrun : run w storeResp env request_id task payload kwargs = .ok out) :
    out.1.output_hash = some (computeHash (parseAgentResult ar).1) ∧
    out.1.result = redactValue (parseAgentResult ar).1 := by
  rcases run_ok_shape w storeResp env request_id task payload kwargs out hrun with
    ⟨ar2, hag2, hs2, rfl⟩ | ⟨m, hag2, hs2, rfl⟩ | ⟨ar2, m, hag2, hs2, hs3, rfl⟩
  · have har : ar2 = ar := by
      rw [hag] at hag2
      exact (Except.ok.injEq _ _ ▸ hag2).symm
    subst har
    constructor
    · simp [successResult, hk]
    · simp [successResult, he]
  · rw [hag] at hag2
    exact Except.noConfusion hag2
  · rw [hs0] at hs2
    exact Except.noConfusion hs2

/-- Witness for C8 at a concrete hashing, enhanced-redaction run. -/
theorem c8_witness :
    (invokeAgent wrapB.agent "t" (dictAppend .nil .nil)).1 = .ok arA ∧
    storeOk 0 = .ok () ∧
    wrapB.policy.keep_hashes = true ∧
    wrapB.use_enhanced_pii = true ∧
    run wrapB storeOk envA "r1" "t" .nil .nil =
      .ok (runOut wrapB storeOk envA "r1" "t" .nil .nil) ∧
    ((runOut wrapB storeOk envA "r1" "t" .nil .nil).1.output_hash =
       some (computeHash (parseAgentResult arA).1) ∧
     (runOut wrapB storeOk envA "r1" "t" .nil .nil).1.result =
       redactValue (parseAgentResult arA).1) :=
  ⟨rfl, rfl, rfl, rfl, rfl,
   c8_hash_before_redaction wrapB storeOk envA "r1" "t" .nil .nil arA _
     rfl rfl rfl rfl rfl⟩

/-- C9: redaction is idempotent — `redact(redact(v)) = redact(v)` for every
value — and no catalogue rule matches any rule's marker token. -/
theorem c9_redaction_idempotent :
    (∀ v : Value, redactValue (redactValue v) = redactValue v) ∧
    (∀ r ∈ piiCatalogue, ∀ r2 ∈ piiCatalogue, r.detect r2.marker = false) :=
  ⟨redactValue_idem, marker_unmatched⟩

/-- Witness for C9 at a concrete PII-bearing value and a concrete rule
pair. -/
theorem c9_witness :
    redactValue (redactValue (.str "contact a@b.com now")) =
      redactValue (.str "contact a@b.com now") ∧
    (PiiRule.mk "email" detectEmail "[EMAIL_REDACTED]".data).detect
      (PiiRule.mk "phone" detectPhone "[PHONE_REDACTED]".data).marker = false := by
  constructor
  · exact c9_redaction_idempotent.1 _
  · exact c9_redaction_idempotent.2 _ (List.mem_cons_self _ _) _
      (List.mem_cons_of_mem _ (List.mem_cons_self _ _))

/-- C10: when the agent succeeds but the success-path storage write raises
(and the handler's own write succeeds), `run` still returns an error-status
result whose `result` is the storage failure's description — the agent's
successful result is discarded — and a second `store_outcome` call with
status `error` is attempted for the same request id. -/
theorem c10_store_failure_discards_success
    (w : Wrapper) (storeResp : Nat → Except String Unit) (env : RunEnv)
    (request_id task : String) (payload kwargs : ValueDict)
    (ar : Value) (m : String) (out : BlackBoxResult × List Event)
    (hag : (invokeAgent w.agent task (dictAppend payload kwargs)).1 = .ok ar)
    (hs0 : storeResp 0 = .error m)
    (_hs1 : storeResp 1 = .ok ())
    (hrun : run w storeResp env request_id task payload kwargs = .ok out) :
    out.1.status = "error" ∧
    out.1.result = .dict (.cons "error" (.str m) .nil) ∧
    storeRecords out.2 =
      [successStoreRecord w env request_id task payload ar,
       errorRecord request_id m env] ∧
    dictLookup (errorRecord request_id m env) "request_id" =
      some (.str request_id) ∧
    dictLookup (errorRecord request_id m env) "status" = some (.str "error") := by
  rcases run_ok_shape w storeResp env request_id task payload kwargs out hrun with
    ⟨ar2, hag2, hs2, rfl⟩ | ⟨m2, hag2, hs2, rfl⟩ | ⟨ar2, m2, hag2, hs2, hs3, rfl⟩
  · rw [hs0] at hs2
    exact Except.noConfusion hs2
  · rw [hag] at hag2
    exact Except.noConfusion hag2
  · have har : ar2 = ar := by
      rw [hag] at hag2
      exact (Except.ok.injEq _ _ ▸ hag2).symm
    have hm : m2 = m := by
      rw [hs0] at hs2
      exact (Except.error.injEq _ _ ▸ hs2).symm
    subst har
    subst hm
    refine ⟨rfl, rfl, ?_, ?_, ?_⟩
    · simp only [storeRecords_append, storeRecords_bgEvents,
                  storeRecords_stripEvents, invokeAgent_storeRecords]
      simp [storeRecords]
    · simp [errorRecord, dictLookup]
    · simp [errorRecord, dictLookup]

def storeFailFirst : Nat → Except String Unit :=
  fun n => if n = 0 then .error "db down" else .ok ()

/-- Witness for C10 at a concrete run whose first store call raises. -/
theorem c10_witness :
    (invokeAgent wrapA.agent "t" (dictAppend .nil .nil)).1 = .ok arA ∧
    storeFailFirst 0 = .error "db down" ∧
    storeFailFirst 1 = .ok () ∧
    run wrapA storeFailFirst envA "r1" "t" .nil .nil =
      .ok (runOut wrapA storeFailFirst envA "r1" "t" .nil .nil) ∧
    ((runOut wrapA storeFailFirst envA "r1" "t" .nil .nil).1.status = "error" ∧
     (runOut wrapA storeFailFirst envA "r1" "t" .nil .nil).1.result =
       .dict (.cons "error" (.str "db down") .nil) ∧
     storeRecords (runOut wrapA storeFailFirst envA "r1" "t" .nil .nil).2 =
       [successStoreRecord wrapA envA "r1" "t" .nil arA,
        errorRecord "r1" "db down" envA] ∧
     dictLookup (errorRecord "r1" "db down" envA) "request_id" =
       some (.str "r1") ∧
     dictLookup (errorRecord "r1" "db down" envA) "status" =
       some (.str "error")) :=
  ⟨rfl, rfl, rfl, rfl,
   c10_store_failure_discards_success wrapA storeFailFirst envA "r1" "t" .nil .nil
     arA "db down" _ rfl rfl rfl rfl⟩
